import Mathlib

/-!  Verification of the PEP2026 NEON sensor-summary script
     (`neon_script/neon_sensors_pep2026.py`).

     Shallow embedding. Timestamps become a record of the calendar/clock
     fields the script reads; tabular data becomes lists of records; the
     effectful control flow of `neon_dwnld_sum_daily` and `main` becomes a
     pure function from an oracle (supplying the outcomes of the external
     `nu.load_by_product` calls) to a trace of observable effects plus an
     outcome.  The float arithmetic of `is_within_window` is modelled in
     integer seconds: every quantity in the source (`h*60+m+s/60.0`, `7.5`,
     `720`, `1440`) is an integer number of sixtieths of a minute, so
     multiplying the source's comparison through by 60 is exact; the float
     rounding of `second / 60.0` (≤ 2⁻⁴⁰ minutes) never crosses a decision
     boundary because at the boundaries (wrapped distance exactly 7.5 or
     720 minutes) the float value is exactly representable.  The spec-side
     distance (claim C1) is stated directly in ℚ minutes and proved
     equivalent. -/

/-- A timestamp at the resolution the script reads: `dt.hour`, `dt.minute`,
`dt.second` are the only clock fields the code accesses (`is_within_window`,
lines 97-107, and the discharge filter, lines 174-177), and the calendar
day is what `strftime('%Y-%m-%d')` uses (line 118). -/
structure PDateTime where
  year : Nat
  month : Nat
  day : Nat
  hour : Nat
  minute : Nat
  second : Nat
deriving DecidableEq, Repr, Inhabited

/-- `is_within_window` (script lines 97-107).  The source computes, in
float minutes, `diff = |h*60+m+s/60.0 - (th*60+tm)|`, wraps with
`1440 - diff` when `diff > 720`, and keeps `diff <= 7.5`.  Here the same
computation is carried out in integer seconds (everything multiplied by
60: 720 min = 43200 s, 1440 min = 86400 s, 7.5 min = 450 s), which is an
exact rescaling of the rational values the floats denote. -/
def is_within_window (dt : PDateTime) (target_h target_m : Int) : Bool :=
  let dt_seconds : Int := (dt.hour : Int) * 3600 + (dt.minute : Int) * 60 + (dt.second : Int)
  let target_seconds : Int := target_h * 3600 + target_m * 60
  let diff : Int := ((dt_seconds - target_seconds).natAbs : Int)
  let diff2 : Int := if diff > 12 * 3600 then 24 * 3600 - diff else diff
  decide (diff2 ≤ 450)

/-- Spec-side (claim C1's words): a reading's time-of-day in minutes from
midnight. -/
def minutesFromMidnight (dt : PDateTime) : ℚ :=
  (dt.hour : ℚ) * 60 + (dt.minute : ℚ) + (dt.second : ℚ) / 60

/-- Spec-side (claim C1's words): circular clock-time distance in minutes —
the absolute difference of minutes-from-midnight, replaced by `1440 - diff`
whenever it exceeds 720. -/
def wrappedClockDist (dt : PDateTime) (target_h target_m : Int) : ℚ :=
  let d : ℚ := |minutesFromMidnight dt - ((target_h : ℚ) * 60 + (target_m : ℚ))|
  if d > 720 then 1440 - d else d

/-- One row of the `waq_instantaneous` table.  The four metadata columns of
the script's `metadata_cols` list are string-typed (hence never in
`select_dtypes(include=['number'])`) and non-null in the product, so they
are plain `String` fields; the numeric measurement columns are an
association list from column name to an optional value (`none` = NaN). -/
structure WaqRow where
  endDateTime : PDateTime
  domainID : String
  siteID : String
  horizontalPosition : String
  release : String
  numeric : List (String × Option ℚ)
deriving DecidableEq, Repr, Inhabited

/-- `s2locs` (line 87). -/
def s2locs : List String := ["102", "110", "112", "132"]

/-- `metadata_cols` (line 123).  In the `waq_instantaneous` product all
four columns exist, so the script's `existing_meta` equals this list. -/
def metadata_cols : List String := ["domainID", "siteID", "horizontalPosition", "release"]

/-- Value of a metadata column in a row. -/
def metaVal (r : WaqRow) (c : String) : String :=
  if c = "domainID" then r.domainID
  else if c = "siteID" then r.siteID
  else if c = "horizontalPosition" then r.horizontalPosition
  else if c = "release" then r.release
  else ""

/-- Value of a numeric column in a row (`none` models NaN, also for a
column absent from the row). -/
def numGet (r : WaqRow) (c : String) : Option ℚ :=
  ((r.numeric.find? (fun p => p.1 == c)).map (fun p => p.2)).join

/-- pandas `mean`: arithmetic mean of the non-missing values, `none` when
all are missing. -/
def meanOpt (l : List (Option ℚ)) : Option ℚ :=
  let vs := l.filterMap id
  if vs.length = 0 then none else some (vs.sum / (vs.length : ℚ))

/-- Lines 116-120: the synthetic `date` for a kept reading — its calendar
day combined with the requested target time (seconds 0).  The script
rebuilds the clock time by parsing `'%Y-%m-%d'`-formatted day plus the
`timeutc` string with format `'%H:%M'`; for any target the format accepts,
hour and minute are nonnegative, so `Int.toNat` is the identity on them. -/
def synthDate (dt : PDateTime) (target_h target_m : Int) : PDateTime :=
  ⟨dt.year, dt.month, dt.day, target_h.toNat, target_m.toNat, 0⟩

/-- The grouping key assigned to a kept reading. -/
def waqKey (target_h target_m : Int) (r : WaqRow) : PDateTime :=
  synthDate r.endDateTime target_h target_m

/-- Lines 87-114: restrict to the S2 sensor locations, then to readings
within the time window. -/
def waq_filtered_rows (rows : List WaqRow) (target_h target_m : Int) : List WaqRow :=
  (rows.filter (fun r => s2locs.contains r.horizontalPosition)).filter
    (fun r => is_within_window r.endDateTime target_h target_m)

/-- Lexicographic order on timestamps (pandas sorts group keys
ascending). -/
def dtLeB (a b : PDateTime) : Bool :=
  if a.year ≠ b.year then a.year < b.year
  else if a.month ≠ b.month then a.month < b.month
  else if a.day ≠ b.day then a.day < b.day
  else if a.hour ≠ b.hour then a.hour < b.hour
  else if a.minute ≠ b.minute then a.minute < b.minute
  else a.second ≤ b.second

/-- Insertion step for sorting the group keys. -/
def insertSorted (a : PDateTime) : List PDateTime → List PDateTime
  | [] => [a]
  | b :: l => if dtLeB a b then a :: b :: l else b :: insertSorted a l

/-- Insertion sort of group keys (models the ascending key order of
`groupby`). -/
def sortDT : List PDateTime → List PDateTime
  | [] => []
  | a :: l => insertSorted a (sortDT l)

/-- The group of kept rows carrying a given synthetic `date` key, in
original row order (`groupby` preserves within-group order). -/
def waq_group (rows : List WaqRow) (target_h target_m : Int) (d : PDateTime) : List WaqRow :=
  (waq_filtered_rows rows target_h target_m).filter
    (fun r => decide (waqKey target_h target_m r = d))

/-- The distinct group keys in ascending order (`groupby('date')`). -/
def waqKeys (rows : List WaqRow) (target_h target_m : Int) : List PDateTime :=
  sortDT (((waq_filtered_rows rows target_h target_m).map (waqKey target_h target_m)).dedup)

/-- A cell of the output table. -/
inductive Cell where
  | dt (d : PDateTime)
  | str (s : String)
  | num (q : Option ℚ)
deriving DecidableEq, Repr

/-- A row of a DataFrame written to CSV: column name / cell pairs in
column order. -/
abbrev DFRow := List (String × Cell)

/-- Lines 130-133: the `agg` result row for one group — `date` key first
(`as_index=False`), then the `agg_map` columns in insertion order: the
numeric means, then the metadata `first` values.  pandas `first` takes the
first value in the group (the metadata columns are non-null). -/
def aggRow (numeric_cols : List String) (d : PDateTime) (grp : List WaqRow) : DFRow :=
  ("date", Cell.dt d)
    :: (numeric_cols.map (fun c => (c, Cell.num (meanOpt (grp.map (fun r => numGet r c))))))
    ++ (metadata_cols.map (fun c => (c, Cell.str (metaVal grp.headI c))))

/-- Line 134: column selection/reordering
`daily_averages[['date'] + existing_meta + numeric_cols]` (every
`numeric_cols` entry is a column of the `agg` result, so the `c in
daily_averages.columns` guard keeps them all). -/
def selectCols (cols : List String) (row : DFRow) : DFRow :=
  cols.filterMap (fun c => (row.find? (fun p => p.1 == c)).map (fun p => (c, p.2)))

/-- Look a cell up by column name. -/
def rowLookup (row : DFRow) (c : String) : Option Cell :=
  (row.find? (fun p => p.1 == c)).map (fun p => p.2)

/-- Lines 87-134: the whole water-quality filter/aggregate computation.
`numericCols0` is the list of numeric-dtype columns of the table
(`select_dtypes(include=['number'])`, line 127); the synthetic `date`
column is datetime-typed, hence never in it. -/
def waq_pipeline (numericCols0 : List String) (rows : List WaqRow)
    (target_h target_m : Int) : List DFRow :=
  let existing_meta := metadata_cols
  let numeric_cols := numericCols0.filter (fun c => !(existing_meta.contains c))
  ((waqKeys rows target_h target_m).map
      (fun d => aggRow numeric_cols d (waq_group rows target_h target_m d))).map
    (selectCols ("date" :: existing_meta ++ numeric_cols))

/-- One row of the `csd_15_min` table: the timestamp the filter reads plus
the remaining columns, carried through untouched. -/
structure CsdRow where
  endDateTime : PDateTime
  cells : List (String × Cell)
deriving DecidableEq, Repr, Inhabited

/-- Lines 174-177: keep only rows whose hour and minute equal the target
exactly. -/
def csd_keep (target_h target_m : Int) (r : CsdRow) : Bool :=
  decide ((r.endDateTime.hour : Int) = target_h) && decide ((r.endDateTime.minute : Int) = target_m)

/-- The discharge rows written to the 00130 CSV, unchanged. -/
def csd_filtered (rows : List CsdRow) (target_h target_m : Int) : List CsdRow :=
  rows.filter (csd_keep target_h target_m)

/-- Does the character list `s` start with `pat`? -/
def chStarts : List Char → List Char → Bool
  | _, [] => true
  | [], _ :: _ => false
  | c :: cs, p :: ps => c = p && chStarts cs ps

/-- Python's substring test `pat in s` on character lists. -/
def chContains : List Char → List Char → Bool
  | [], pat => pat.isEmpty
  | c :: rest, pat => chStarts (c :: rest) pat || chContains rest pat

/-- Python's `pat in s` for strings. -/
def strContains (s pat : String) : Bool := chContains s.data pat.data

/-- Python's `str.lower()` (ASCII, which covers the bundle keys). -/
def pyLower (s : String) : String := ⟨s.data.map Char.toLower⟩

/-- Spec-side: case-insensitive substring match. -/
def strContainsCI (s pat : String) : Bool := chContains (pyLower s).data (pyLower pat).data

/-- `str.split(sep)` on character lists. -/
def pySplitAux (sep : Char) : List Char → List Char → List (List Char)
  | [], acc => [acc.reverse]
  | c :: cs, acc => if c = sep then acc.reverse :: pySplitAux sep cs [] else pySplitAux sep cs (c :: acc)

/-- Python's `s.split(sep)` for a one-character separator. -/
def pySplit (s : String) (sep : Char) : List String :=
  (pySplitAux sep s.data []).map (fun l => String.mk l)

/-- Digits accumulator for `int()`. -/
def natOfDigitsAux : List Char → Nat → Option Nat
  | [], acc => some acc
  | c :: cs, acc => if c.isDigit then natOfDigitsAux cs (acc * 10 + (c.toNat - 48)) else none

/-- A nonempty all-digit character list, as a number. -/
def natOfDigits (cs : List Char) : Option Nat :=
  if cs.isEmpty then none else natOfDigitsAux cs 0

/-- Python's `int(str)`: optional surrounding whitespace, optional sign,
then decimal digits.  (Python additionally accepts underscore digit
separators and non-ASCII digits; no input of interest uses them.) -/
def pyInt? (s : String) : Option Int :=
  let t := (((s.data.dropWhile Char.isWhitespace).reverse.dropWhile Char.isWhitespace).reverse)
  match t with
  | '-' :: rest => (natOfDigits rest).map (fun n => -(n : Int))
  | '+' :: rest => (natOfDigits rest).map (fun n => (n : Int))
  | rest => (natOfDigits rest).map (fun n => (n : Int))

/-- Line 58: `target_hour, target_minute = map(int, timeutc.split(':'))`.
Fails (a `ValueError` propagating out of the function, before either
`try` block) when a part is not an integer or there are not exactly two
parts. -/
def parseTimeutc (timeutc : String) : Except String (Int × Int) :=
  match (pySplit timeutc ':').mapM pyInt? with
  | none => Except.error "ValueError: invalid literal for int() with base 10"
  | some [h, m] => Except.ok (h, m)
  | some _ => Except.error "ValueError: unpacking map object"

/-- `write_citation` (lines 8-29): select every bundle entry whose
lowercased key contains `'citation_' + dpnum`, keep the values in order,
and return the output path `savepath + siteid + '_citation_' + dpnum +
'.txt'` together with the value sequence that `print(citations, ...)`
renders into that file. -/
def write_citation {α : Type} (dpnum : String) (siteid : String)
    (data : List (String × α)) (savepath : String) : String × List α :=
  let citations := (data.filter
    (fun kv => strContains (pyLower kv.1) ("citation_" ++ dpnum))).map (fun kv => kv.2)
  (savepath ++ siteid ++ "_citation_" ++ dpnum ++ ".txt", citations)

/-- Mode-`"w"` file write: the new content shadows whatever the path held. -/
def fsWrite {β : Type} (fs : List (String × β)) (p : String) (v : β) : List (String × β) :=
  (p, v) :: fs

/-- Filesystem read: the most recent write to the path. -/
def fsRead {β : Type} (fs : List (String × β)) (p : String) : Option β :=
  (fs.find? (fun q => q.1 == p)).map (fun q => q.2)

/-- The `waq_instantaneous` table: its numeric-dtype column names and its
rows. -/
structure WaqTable where
  numericCols : List String
  rows : List WaqRow
deriving DecidableEq, Repr, Inhabited

/-- A value of the downloaded bundle dictionary. -/
inductive PyObj where
  | str (s : String)
  | waqT (t : WaqTable)
  | csdT (rows : List CsdRow)
deriving DecidableEq, Repr

/-- A successful `nu.load_by_product` bundle: a dictionary. -/
abbrev Bundle := List (String × PyObj)

/-- What `nu.load_by_product` returns when it does not raise: a dict, or
some non-mapping value (the `isinstance(data, dict)` check, lines 75/158,
branches on exactly this). -/
inductive PyVal where
  | dict (b : Bundle)
  | nonDict
deriving DecidableEq, Repr

/-- The external download collaborator, keyed by the data-product id (the
site/date-range/release/package/token arguments are fixed for the whole
call and absorbed here); `error` models the call raising. -/
structure Oracle where
  load : String → Except String PyVal

/-- Per-site download behaviour for the driver. -/
abbrev World := String → Oracle

/-- Contents of the files the script writes. -/
inductive FileContent where
  | citation (dpnum : String) (vals : List PyObj)
  | waqCsv (rows : List DFRow)
  | csdCsv (rows : List CsdRow)
deriving DecidableEq, Repr

/-- Observable effects of a run. -/
inductive Eff where
  | download (dpid : String)
  | fileWrite (path : String) (content : FileContent)
  | print (msg : String)
deriving DecidableEq, Repr

/-- An effect trace. -/
abbrev Trace := List Eff

/-- How a call to `neon_dwnld_sum_daily` ends: the `return None` of an
`except` arm, the normal fall-through return, or an uncaught exception. -/
inductive Outcome where
  | earlyReturn
  | normalReturn
  | raised (e : String)
deriving DecidableEq, Repr

/-- Python dict lookup `data[k]` (raises `KeyError` when absent). -/
def bundleGet (b : Bundle) (k : String) : Except String PyObj :=
  match b.find? (fun p => p.1 == k) with
  | none => Except.error ("KeyError: " ++ k)
  | some p => Except.ok p.2

/-- Line 84: `data["waq_instantaneous"]` followed by the DataFrame
operations, which fail on a non-table value. -/
def getWaqT (b : Bundle) : Except String WaqTable :=
  match bundleGet b "waq_instantaneous" with
  | Except.error e => Except.error e
  | Except.ok (PyObj.waqT t) => Except.ok t
  | Except.ok _ => Except.error "AttributeError: not a DataFrame"

/-- Line 167: `data["csd_15_min"]` likewise. -/
def getCsdT (b : Bundle) : Except String (List CsdRow) :=
  match bundleGet b "csd_15_min" with
  | Except.error e => Except.error e
  | Except.ok (PyObj.csdT rows) => Except.ok rows
  | Except.ok _ => Except.error "AttributeError: not a DataFrame"

/-- Is `(target_h, target_m)` a clock time `strptime('%H:%M')` accepts? -/
def validTime (target_h target_m : Int) : Bool :=
  decide (0 ≤ target_h) && decide (target_h < 24) && decide (0 ≤ target_m) && decide (target_m < 60)

/-- The body of the first `try` block (lines 61-137): download the water
quality product; on a dict result write the citation file, fetch the
table, filter, aggregate, and write the daily CSV.  `to_datetime` with
format `'%Y-%m-%d %H:%M'` (lines 117-120) raises when the kept-row series
is nonempty and the target clock time is not a valid `%H:%M` time; on an
empty series there is nothing to parse. -/
def waq_try_block (o : Oracle) (savepath siteid : String)
    (target_h target_m : Int) : Trace × Except String Unit :=
  match o.load "DP1.20288.001" with
  | Except.error e => ([Eff.download "DP1.20288.001"], Except.error e)
  | Except.ok PyVal.nonDict => ([Eff.download "DP1.20288.001"], Except.ok ())
  | Except.ok (PyVal.dict b) =>
    let cit := write_citation "20288" siteid b savepath
    let tr := [Eff.download "DP1.20288.001", Eff.fileWrite cit.1 (FileContent.citation "20288" cit.2)]
    match getWaqT b with
    | Except.error e => (tr, Except.error e)
    | Except.ok t =>
      if !(waq_filtered_rows t.rows target_h target_m).isEmpty && !validTime target_h target_m then
        (tr, Except.error "ValueError: time data does not match format")
      else
        (tr ++ [Eff.fileWrite (savepath ++ siteid ++ "_daily_20288.csv")
                  (FileContent.waqCsv (waq_pipeline t.numericCols t.rows target_h target_m))],
         Except.ok ())

/-- The body of the second `try` block (lines 144-180): download the
discharge product; on a dict result write the citation file, fetch the
table, filter to the exact target hour/minute, and write the rows
unchanged. -/
def csd_try_block (o : Oracle) (savepath siteid : String)
    (target_h target_m : Int) : Trace × Except String Unit :=
  match o.load "DP4.00130.001" with
  | Except.error e => ([Eff.download "DP4.00130.001"], Except.error e)
  | Except.ok PyVal.nonDict => ([Eff.download "DP4.00130.001"], Except.ok ())
  | Except.ok (PyVal.dict b) =>
    let cit := write_citation "00130" siteid b savepath
    let tr := [Eff.download "DP4.00130.001", Eff.fileWrite cit.1 (FileContent.citation "00130" cit.2)]
    match getCsdT b with
    | Except.error e => (tr, Except.error e)
    | Except.ok rows =>
      (tr ++ [Eff.fileWrite (savepath ++ siteid ++ "_daily_00130.csv")
                (FileContent.csdCsv (csd_filtered rows target_h target_m))],
       Except.ok ())

/-- Line 186 (with the source's spelling). -/
def success_message : String := "Both data products successfully summarized and saved to savapath"

/-- `neon_dwnld_sum_daily` (lines 31-187): parse the target time (outside
both `try` blocks), run the water-quality pipeline — an exception there is
caught, logged with the exception text, and the function returns — then
the discharge pipeline under the same policy, then print the success
message. -/
def neon_dwnld_sum_daily (o : Oracle) (savepath siteid : String)
    (startmonth endmonth : String) (timeutc : String) : Trace × Outcome :=
  match parseTimeutc timeutc with
  | Except.error e => ([], Outcome.raised e)
  | Except.ok (target_h, target_m) =>
    match waq_try_block o savepath siteid target_h target_m with
    | (trA, Except.error e) =>
      (trA ++ [Eff.print ("Error downloading data: " ++ e)], Outcome.earlyReturn)
    | (trA, Except.ok _) =>
      match csd_try_block o savepath siteid target_h target_m with
      | (trB, Except.error e) =>
        (trA ++ (trB ++ [Eff.print ("Error downloading data: " ++ e)]), Outcome.earlyReturn)
      | (trB, Except.ok _) =>
        (trA ++ (trB ++ [Eff.print success_message]), Outcome.normalReturn)

/-- One site's configuration entry (lines 194-199). -/
structure SiteParams where
  startmonth : String
  endmonth : String
  timeutc : String
deriving DecidableEq, Repr, Inhabited

/-- An ASCII apostrophe, for Python `repr` output. -/
def pyQuote : String := String.singleton (Char.ofNat 39)

/-- Python's `repr` of a `site_inputs` entry, as interpolated by
`f"... {params}"`. -/
def paramsRepr (p : SiteParams) : String :=
  "\x7b" ++ pyQuote ++ "startmonth" ++ pyQuote ++ ": " ++ pyQuote ++ p.startmonth ++ pyQuote
    ++ ", " ++ pyQuote ++ "endmonth" ++ pyQuote ++ ": " ++ pyQuote ++ p.endmonth ++ pyQuote
    ++ ", " ++ pyQuote ++ "timeutc" ++ pyQuote ++ ": " ++ pyQuote ++ p.timeutc ++ pyQuote
    ++ "\x7d"

/-- Line 204's log line. -/
def processingMsg (siteid : String) (p : SiteParams) : String :=
  "Processing site " ++ siteid ++ " with parameters: " ++ paramsRepr p

/-- The hardcoded output directory (line 206). -/
def data_dir : String := "C:/Users/nickerson/Documents/GitHub/PEP2026/neon_script/data/"

/-- `site_inputs` (lines 194-199), in definition order. -/
def site_inputs : List (String × SiteParams) :=
  [("LEWI", ⟨"2023-10", "2024-09", "16:00"⟩),
   ("COMO", ⟨"2023-10", "2024-09", "18:00"⟩),
   ("LECO", ⟨"2023-10", "2024-09", "16:00"⟩),
   ("MCRA", ⟨"2023-10", "2024-09", "19:00"⟩)]

/-- The loop body of `main` (lines 202-214): log the site, invoke the
summarizer, and catch any exception it raises, logging it with the site
id. -/
def driverStep (w : World) (siteid : String) (p : SiteParams) : Trace :=
  let pr := Eff.print (processingMsg siteid p)
  match neon_dwnld_sum_daily (w siteid) data_dir siteid p.startmonth p.endmonth p.timeutc with
  | (tr, Outcome.raised e) =>
    pr :: (tr ++ [Eff.print ("Error processing site " ++ siteid ++ ": " ++ e)])
  | (tr, _) => pr :: tr

/-- `main` (lines 189-217): process every site in table order, then print
the completion message.  (Named `script_main` because Lean reserves plain
`main` for executables.) -/
def script_main (w : World) : Trace :=
  (site_inputs.map (fun sp => driverStep w sp.1 sp.2)).flatten
    ++ [Eff.print "All sites processed successfully"]

/-- Fixture: an oracle whose downloads always raise. -/
def witOracleFail : Oracle := ⟨fun _ => Except.error "boom"⟩

/-- Fixture: an oracle whose downloads return a non-mapping value. -/
def witOracleNonDict : Oracle := ⟨fun _ => Except.ok PyVal.nonDict⟩

/-- Fixture: a world where every site's downloads raise. -/
def witWorldFail : World := fun _ => witOracleFail

/-- Fixture: two discharge rows, one at 16:00 and one at 15:59. -/
def witCsdRows : List CsdRow :=
  [⟨⟨2023, 10, 5, 16, 0, 0⟩, [("continuousDischarge", Cell.num (some 12))]⟩,
   ⟨⟨2023, 10, 5, 15, 59, 0⟩, [("continuousDischarge", Cell.num (some 9))]⟩]

/-- Fixture: a discharge bundle with a citation entry and the 15-minute
table. -/
def witCsdBundle : Bundle :=
  [("citation_00130_RELEASE-2026", PyObj.str "NEON discharge citation"),
   ("csd_15_min", PyObj.csdT witCsdRows)]

/-- Fixture: an oracle serving the discharge bundle. -/
def witOracleCsd : Oracle :=
  ⟨fun dpid => if dpid == "DP4.00130.001" then Except.ok (PyVal.dict witCsdBundle)
               else Except.error "boom"⟩

/-- Fixture: a water-quality reading 3 minutes after a 16:00 target. -/
def witWaqRow : WaqRow :=
  ⟨⟨2023, 10, 5, 16, 3, 0⟩, "D02", "LEWI", "102", "RELEASE-2026", [("ph", some 7)]⟩

/-- Fixture: the reading above plus a noon reading outside the window. -/
def witWaqRows : List WaqRow :=
  [witWaqRow, ⟨⟨2023, 10, 5, 12, 0, 0⟩, "D02", "LEWI", "102", "RELEASE-2026", [("ph", some 6)]⟩]

/-- Fixture: a well-formed site parameter entry. -/
def witSiteParams : SiteParams := ⟨"2023-10", "2024-09", "16:00"⟩

/-- Fixture: a site parameter entry whose time string does not parse. -/
def witBadParams : SiteParams := ⟨"2023-10", "2024-09", "noon"⟩

/-- An effect the water-quality `try` block can emit. -/
def isWaqEffect (eff : Eff) : Prop :=
  eff = Eff.download "DP1.20288.001"
  ∨ (∃ p v, eff = Eff.fileWrite p (FileContent.citation "20288" v))
  ∨ (∃ p rs, eff = Eff.fileWrite p (FileContent.waqCsv rs))

/-- An effect the discharge `try` block can emit. -/
def isCsdEffect (eff : Eff) : Prop :=
  eff = Eff.download "DP4.00130.001"
  ∨ (∃ p v, eff = Eff.fileWrite p (FileContent.citation "00130" v))
  ∨ (∃ p rs, eff = Eff.fileWrite p (FileContent.csdCsv rs))

/-!  Theorems. -/

theorem is_within_window_time_only (dt dt' : PDateTime) (th tm : Int)
    (hh : dt'.hour = dt.hour) (hm : dt'.minute = dt.minute) (hs : dt'.second = dt.second) :
    is_within_window dt' th tm = is_within_window dt th tm := by
  unfold is_within_window
  rw [hh, hm, hs]

theorem is_within_window_iff_dist (dt : PDateTime) (th tm : Int) :
    is_within_window dt th tm = true ↔ wrappedClockDist dt th tm ≤ 15 / 2 := by
  unfold is_within_window wrappedClockDist minutesFromMidnight
  simp only [decide_eq_true_eq]
  set S : Int := ((dt.hour : Int) * 3600 + (dt.minute : Int) * 60 + (dt.second : Int))
      - (th * 3600 + tm * 60) with hS
  have hQ : (dt.hour : ℚ) * 60 + (dt.minute : ℚ) + (dt.second : ℚ) / 60
      - ((th : ℚ) * 60 + (tm : ℚ)) = (S : ℚ) / 60 := by
    rw [hS]; push_cast; ring
  rw [hQ]
  have h60 : (0 : ℚ) < 60 := by norm_num
  have habs : |(S : ℚ) / 60| = ((S.natAbs : Int) : ℚ) / 60 := by
    rw [abs_div, abs_of_pos h60]
    congr 1
    push_cast [Int.cast_natAbs]
    ring
  rw [habs]
  set n : Int := (S.natAbs : Int) with hn
  have hq60 : (60 : ℚ) * ((n : ℚ) / 60) = (n : ℚ) := by field_simp
  have hcond : ((12 * 3600 : Int) < n) ↔ ((720 : ℚ) < (n : ℚ) / 60) := by
    rw [lt_div_iff₀ h60]
    constructor
    · intro h
      have : ((43200 : Int) : ℚ) < (n : ℚ) := by exact_mod_cast (by omega : (43200 : Int) < n)
      push_cast at this
      linarith
    · intro h
      have : (43200 : ℚ) < (n : ℚ) := by linarith
      have : (43200 : Int) < n := by exact_mod_cast this
      omega
  rcases lt_or_le (12 * 3600 : Int) n with hgt | hle
  · rw [if_pos hgt, if_pos (by rw [gt_iff_lt]; exact hcond.mp hgt)]
    constructor
    · intro h
      have h2 : ((24 * 3600 - n : Int) : ℚ) ≤ ((450 : Int) : ℚ) := by exact_mod_cast h
      push_cast at h2
      linarith
    · intro h
      have h2 : (86400 : ℚ) - (n : ℚ) ≤ 450 := by linarith
      have h3 : ((24 * 3600 - n : Int) : ℚ) ≤ ((450 : Int) : ℚ) := by push_cast; linarith
      exact_mod_cast h3
  · rw [if_neg (by omega), if_neg (by rw [gt_iff_lt]; exact fun hc => absurd (hcond.mpr hc) (by omega))]
    constructor
    · intro h
      have h2 : ((n : Int) : ℚ) ≤ ((450 : Int) : ℚ) := by exact_mod_cast h
      push_cast at h2
      linarith
    · intro h
      have h2 : (n : ℚ) ≤ 450 := by linarith
      exact_mod_cast h2

/-- C1: the water-quality time-window filter keeps a reading iff the
circular clock-time distance (absolute minutes-from-midnight difference,
wrapped with `1440 - diff` when above 720) between the reading's
time-of-day and the target is ≤ 7.5 minutes; the test reads only the
time-of-day fields, never the calendar date. -/
theorem C1_time_window_filter (th tm : Int) (rows : List WaqRow) (dt : PDateTime) :
    (is_within_window dt th tm = true ↔ wrappedClockDist dt th tm ≤ 15 / 2)
    ∧ (∀ dt' : PDateTime, dt'.hour = dt.hour → dt'.minute = dt.minute → dt'.second = dt.second →
        is_within_window dt' th tm = is_within_window dt th tm)
    ∧ (∀ r : WaqRow,
        r ∈ waq_filtered_rows rows th tm
          ↔ r ∈ rows.filter (fun r => s2locs.contains r.horizontalPosition)
            ∧ wrappedClockDist r.endDateTime th tm ≤ 15 / 2) := by
  refine ⟨is_within_window_iff_dist dt th tm, ?_, ?_⟩
  · intro dt' hh hm hs
    exact is_within_window_time_only dt dt' th tm hh hm hs
  · intro r
    rw [waq_filtered_rows, List.mem_filter, is_within_window_iff_dist]

/-- Witness for C1 at a concrete reading 7.5 minutes from the target and
a concrete reading 8 minutes away, one day apart. -/
theorem C1_time_window_filter_witness :
    (is_within_window ⟨2024, 5, 1, 16, 7, 30⟩ 16 0 = true
      ↔ wrappedClockDist ⟨2024, 5, 1, 16, 7, 30⟩ 16 0 ≤ 15 / 2)
    ∧ (is_within_window ⟨2024, 5, 2, 16, 7, 30⟩ 16 0 = is_within_window ⟨2024, 5, 1, 16, 7, 30⟩ 16 0)
    ∧ (is_within_window ⟨2024, 5, 1, 16, 7, 30⟩ 16 0 = true)
    ∧ (is_within_window ⟨2024, 5, 1, 16, 8, 0⟩ 16 0 = false)
    ∧ (is_within_window ⟨2024, 5, 1, 23, 59, 0⟩ 0 2 = true) :=
  ⟨(C1_time_window_filter 16 0 [] ⟨2024, 5, 1, 16, 7, 30⟩).1,
   (C1_time_window_filter 16 0 [] ⟨2024, 5, 1, 16, 7, 30⟩).2.1 ⟨2024, 5, 2, 16, 7, 30⟩ rfl rfl rfl,
   by decide, by decide, by decide⟩

theorem find?_map_self (cs : List String) (c : String) (F : String → Cell) (hc : c ∈ cs) :
    (cs.map (fun x => (x, F x))).find? (fun p => p.1 == c) = some (c, F c) := by
  induction cs with
  | nil => cases hc
  | cons a l ih =>
    rcases List.mem_cons.mp hc with rfl | hm
    · simp [List.find?]
    · by_cases h : a = c
      · subst h
        simp [List.find?]
      · have hb : (a == c) = false := by simp [h]
        simp [List.find?, hb, ih hm]

theorem find?_map_none (cs : List String) (c : String) (F : String → Cell)
    (hc : ∀ x ∈ cs, x ≠ c) :
    (cs.map (fun x => (x, F x))).find? (fun p => p.1 == c) = none := by
  induction cs with
  | nil => simp [List.find?]
  | cons a l ih =>
    have ha : (a == c) = false := by simp [hc a (List.mem_cons_self a l)]
    simp [List.find?, ha, ih (fun x hx => hc x (List.mem_cons_of_mem a hx))]

theorem filterMap_select (cs : List String) (row : DFRow) (F : String → Cell)
    (h : ∀ c ∈ cs, row.find? (fun p => p.1 == c) = some (c, F c)) :
    cs.filterMap (fun c => (row.find? (fun p => p.1 == c)).map (fun p => (c, p.2)))
      = cs.map (fun c => (c, F c)) := by
  induction cs with
  | nil => rfl
  | cons a l ih =>
    have ha := h a (List.mem_cons_self a l)
    simp only [List.filterMap_cons, ha, Option.map_some', List.map_cons]
    rw [ih (fun c hc => h c (List.mem_cons_of_mem a hc))]

theorem mem_insertSorted (a x : PDateTime) (l : List PDateTime) :
    x ∈ insertSorted a l ↔ x = a ∨ x ∈ l := by
  induction l with
  | nil => simp [insertSorted]
  | cons b l ih =>
    by_cases h : dtLeB a b <;>
      simp [insertSorted, h, List.mem_cons, ih] <;> tauto

theorem mem_sortDT (x : PDateTime) (l : List PDateTime) : x ∈ sortDT l ↔ x ∈ l := by
  induction l with
  | nil => simp [sortDT]
  | cons a l ih => simp [sortDT, mem_insertSorted, ih, List.mem_cons]

theorem meanOpt_single (x : Option ℚ) : meanOpt [x] = x := by
  cases x with
  | none => simp [meanOpt]
  | some q => simp [meanOpt]

theorem find?_cons_skip {α : Type} (a : α) (l : List α) (p : α → Bool) (h : p a = false) :
    (a :: l).find? p = l.find? p := by
  simp [List.find?, h]

theorem find?_aggRow_date (nc : List String) (d : PDateTime) (g : List WaqRow) :
    (aggRow nc d g).find? (fun p => p.1 == "date") = some ("date", Cell.dt d) := by
  simp [aggRow, List.find?]

theorem find?_aggRow_meta (nc : List String) (d : PDateTime) (g : List WaqRow) (c : String)
    (hc : c ∈ metadata_cols) (hnc : ∀ x ∈ nc, ¬ x ∈ metadata_cols) :
    (aggRow nc d g).find? (fun p => p.1 == c) = some (c, Cell.str (metaVal g.headI c)) := by
  have hcd : ("date" : String) ≠ c := by
    intro h
    rw [← h] at hc
    simp [metadata_cols] at hc
  have hb : ((fun p : String × Cell => p.1 == c) ("date", Cell.dt d)) = false := by
    simp [hcd]
  unfold aggRow
  rw [List.find?_append]
  rw [find?_cons_skip ("date", Cell.dt d) _ (fun p => p.1 == c) hb]
  rw [find?_map_none nc c _ (fun x hx hxc => hnc x hx (hxc ▸ hc)),
    find?_map_self metadata_cols c _ hc]
  rfl

theorem find?_aggRow_num (nc : List String) (d : PDateTime) (g : List WaqRow) (c : String)
    (hcn : c ∈ nc) (hcd : c ≠ "date") :
    (aggRow nc d g).find? (fun p => p.1 == c)
      = some (c, Cell.num (meanOpt (g.map (fun r => numGet r c)))) := by
  have hb : ((fun p : String × Cell => p.1 == c) ("date", Cell.dt d)) = false := by
    simp [Ne.symm hcd]
  unfold aggRow
  rw [List.find?_append]
  rw [find?_cons_skip ("date", Cell.dt d) _ (fun p => p.1 == c) hb]
  rw [find?_map_self nc c _ hcn]
  rfl

theorem selectCols_aggRow (nc : List String) (hncd : "date" ∉ nc)
    (hnc : ∀ x ∈ nc, ¬ x ∈ metadata_cols) (d : PDateTime) (g : List WaqRow) :
    selectCols ("date" :: metadata_cols ++ nc) (aggRow nc d g)
      = ("date", Cell.dt d)
        :: metadata_cols.map (fun c => (c, Cell.str (metaVal g.headI c)))
        ++ nc.map (fun c => (c, Cell.num (meanOpt (g.map (fun r => numGet r c))))) := by
  unfold selectCols
  simp only [List.filterMap_cons, List.filterMap_append]
  rw [find?_aggRow_date nc d g]
  rw [filterMap_select metadata_cols (aggRow nc d g) (fun c => Cell.str (metaVal g.headI c))
    (fun c hc => find?_aggRow_meta nc d g c hc hnc)]
  rw [filterMap_select nc (aggRow nc d g)
    (fun c => Cell.num (meanOpt (g.map (fun r => numGet r c))))
    (fun c hc => find?_aggRow_num nc d g c hc (fun h => hncd (h ▸ hc)))]
  rfl

theorem nc_filter_not_meta (nc0 : List String) :
    ∀ x ∈ nc0.filter (fun c => !(metadata_cols.contains c)), ¬ x ∈ metadata_cols := by
  intro x hx hmem
  have h := List.of_mem_filter hx
  rw [Bool.not_eq_true'] at h
  have h2 : metadata_cols.contains x = true := by
    simpa [List.contains] using List.elem_eq_true_of_mem hmem
  rw [h2] at h
  cases h

theorem waq_pipeline_eq (nc0 : List String) (rows : List WaqRow) (th tm : Int)
    (hdate : "date" ∉ nc0) :
    waq_pipeline nc0 rows th tm
      = (waqKeys rows th tm).map (fun d =>
          ("date", Cell.dt d)
            :: metadata_cols.map
                (fun c => (c, Cell.str (metaVal (waq_group rows th tm d).headI c)))
            ++ (nc0.filter (fun c => !(metadata_cols.contains c))).map
                (fun c => (c, Cell.num
                  (meanOpt ((waq_group rows th tm d).map (fun r => numGet r c)))))) := by
  unfold waq_pipeline
  rw [List.map_map]
  apply List.map_congr_left
  intro d _
  exact selectCols_aggRow (nc0.filter (fun c => !(metadata_cols.contains c)))
    (fun h => hdate (List.mem_of_mem_filter h)) (nc_filter_not_meta nc0) d
    (waq_group rows th tm d)

theorem find?_cons_hit {α : Type} (a : α) (l : List α) (p : α → Bool) (h : p a = true) :
    (a :: l).find? p = some a := by
  simp [List.find?, h]

theorem rowLookup_shape_date (nc : List String) (x : Cell) (Fm Fn : String → Cell) :
    rowLookup (("date", x) :: metadata_cols.map (fun c => (c, Fm c))
        ++ nc.map (fun c => (c, Fn c))) "date" = some x := by
  unfold rowLookup
  rw [List.find?_append]
  rw [find?_cons_hit ("date", x) _ (fun p => p.1 == "date") (by simp)]
  rfl

theorem rowLookup_shape_meta (nc : List String) (x : Cell) (Fm Fn : String → Cell) (c : String)
    (hc : c ∈ metadata_cols) :
    rowLookup (("date", x) :: metadata_cols.map (fun c => (c, Fm c))
        ++ nc.map (fun c => (c, Fn c))) c = some (Fm c) := by
  have hcd : ("date" : String) ≠ c := by
    intro h
    rw [← h] at hc
    simp [metadata_cols] at hc
  unfold rowLookup
  rw [List.find?_append]
  rw [find?_cons_skip ("date", x) _ (fun p => p.1 == c) (by simp [hcd])]
  rw [find?_map_self metadata_cols c _ hc]
  rfl

theorem rowLookup_shape_num (nc : List String) (x : Cell) (Fm Fn : String → Cell) (c : String)
    (hcn : c ∈ nc) (hcd : c ≠ "date") (hcm : ¬ c ∈ metadata_cols) :
    rowLookup (("date", x) :: metadata_cols.map (fun c => (c, Fm c))
        ++ nc.map (fun c => (c, Fn c))) c = some (Fn c) := by
  unfold rowLookup
  rw [List.find?_append]
  rw [find?_cons_skip ("date", x) _ (fun p => p.1 == c) (by simp [Ne.symm hcd])]
  rw [find?_map_none metadata_cols c _ (fun y hy hyc => hcm (hyc ▸ hy))]
  rw [find?_map_self nc c _ hcn]
  rfl

/-- C2: kept readings are grouped by the synthetic `date` key; each
output row holds the `date` key, then the metadata columns reduced to the
group's first row's values, then — for every numeric column outside the
metadata set — the mean of the column over the group with missing values
ignored; and the columns are ordered `date`, metadata, numeric. -/
theorem C2_daily_aggregation (numericCols0 : List String) (rows : List WaqRow) (th tm : Int)
    (hdate : "date" ∉ numericCols0) :
    (waq_pipeline numericCols0 rows th tm
      = (waqKeys rows th tm).map (fun d =>
          ("date", Cell.dt d)
            :: metadata_cols.map
                (fun c => (c, Cell.str (metaVal (waq_group rows th tm d).headI c)))
            ++ (numericCols0.filter (fun c => !(metadata_cols.contains c))).map
                (fun c => (c, Cell.num
                  (meanOpt ((waq_group rows th tm d).map (fun r => numGet r c)))))))
    ∧ (∀ row ∈ waq_pipeline numericCols0 rows th tm,
        row.map Prod.fst
          = "date" :: metadata_cols ++ numericCols0.filter (fun c => !(metadata_cols.contains c))) := by
  refine ⟨waq_pipeline_eq numericCols0 rows th tm hdate, ?_⟩
  intro row hrow
  rw [waq_pipeline_eq numericCols0 rows th tm hdate] at hrow
  obtain ⟨d, _, rfl⟩ := List.mem_map.mp hrow
  simp [List.map_append, List.map_map, Function.comp_def]

/-- Witness for C2 on a concrete two-reading table with one `ph` column. -/
theorem C2_daily_aggregation_witness :
    ("date" ∉ ["ph"]) ∧
      (waq_pipeline ["ph"] witWaqRows 16 0
        = (waqKeys witWaqRows 16 0).map (fun d =>
            ("date", Cell.dt d)
              :: metadata_cols.map
                  (fun c => (c, Cell.str (metaVal (waq_group witWaqRows 16 0 d).headI c)))
              ++ (["ph"].filter (fun c => !(metadata_cols.contains c))).map
                  (fun c => (c, Cell.num
                    (meanOpt ((waq_group witWaqRows 16 0 d).map (fun r => numGet r c))))))) :=
  ⟨by decide, (C2_daily_aggregation ["ph"] witWaqRows 16 0 (by decide)).1⟩

/-- C3: every kept reading's synthetic `date` is its own calendar day with
exactly the requested target clock time; that value is the grouping key
and the value in the output's `date` column. -/
theorem C3_synthetic_date_key (numericCols0 : List String) (rows : List WaqRow) (th tm : Nat)
    (hdate : "date" ∉ numericCols0) :
    (∀ r ∈ waq_filtered_rows rows (th : Int) (tm : Int),
        waqKey (th : Int) (tm : Int) r
          = ⟨r.endDateTime.year, r.endDateTime.month, r.endDateTime.day, th, tm, 0⟩)
    ∧ (∀ row ∈ waq_pipeline numericCols0 rows (th : Int) (tm : Int),
        ∃ d ∈ waqKeys rows (th : Int) (tm : Int),
          rowLookup row "date" = some (Cell.dt d)
          ∧ waq_group rows (th : Int) (tm : Int) d ≠ []
          ∧ ∀ r ∈ waq_group rows (th : Int) (tm : Int) d, waqKey (th : Int) (tm : Int) r = d) := by
  constructor
  · intro r _
    unfold waqKey synthDate
    rw [Int.toNat_natCast, Int.toNat_natCast]
  · intro row hrow
    rw [waq_pipeline_eq numericCols0 rows (th : Int) (tm : Int) hdate] at hrow
    obtain ⟨d, hd, rfl⟩ := List.mem_map.mp hrow
    refine ⟨d, hd, rowLookup_shape_date _ _ _ _, ?_, ?_⟩
    · unfold waqKeys at hd
      rw [mem_sortDT] at hd
      obtain ⟨r, hrf, hrk⟩ := List.mem_map.mp (List.mem_dedup.mp hd)
      have : r ∈ waq_group rows (th : Int) (tm : Int) d :=
        List.mem_filter.mpr ⟨hrf, by simp [hrk]⟩
      exact List.ne_nil_of_mem this
    · intro r hr
      have := List.of_mem_filter hr
      simpa using this

/-- Witness for C3 at a concrete kept reading. -/
theorem C3_synthetic_date_key_witness :
    (witWaqRow ∈ waq_filtered_rows witWaqRows (16 : Int) (0 : Int))
      ∧ waqKey ((16 : Nat) : Int) ((0 : Nat) : Int) witWaqRow
          = ⟨2023, 10, 5, 16, 0, 0⟩ :=
  ⟨by decide,
   (C3_synthetic_date_key ["ph"] witWaqRows 16 0 (by decide)).1 witWaqRow (by decide)⟩

/-- C8: on a day whose window holds exactly one reading, the output row
carries that reading's numeric values unchanged and its metadata values. -/
theorem C8_single_reading_idempotence (numericCols0 : List String) (rows : List WaqRow)
    (th tm : Int) (d : PDateTime) (r : WaqRow)
    (hdate : "date" ∉ numericCols0)
    (hg : waq_group rows th tm d = [r]) :
    ∃ row ∈ waq_pipeline numericCols0 rows th tm,
      rowLookup row "date" = some (Cell.dt d)
      ∧ (∀ c ∈ numericCols0.filter (fun c => !(metadata_cols.contains c)),
          rowLookup row c = some (Cell.num (numGet r c)))
      ∧ (∀ c ∈ metadata_cols, rowLookup row c = some (Cell.str (metaVal r c))) := by
  have hrmem : r ∈ waq_group rows th tm d := by
    rw [hg]
    exact List.mem_singleton_self r
  have hkey : waqKey th tm r = d := by
    have := List.of_mem_filter hrmem
    simpa using this
  have hrfil : r ∈ waq_filtered_rows rows th tm := List.mem_of_mem_filter hrmem
  have hdk : d ∈ waqKeys rows th tm := by
    unfold waqKeys
    rw [mem_sortDT]
    exact List.mem_dedup.mpr (hkey ▸ List.mem_map_of_mem (waqKey th tm) hrfil)
  refine ⟨("date", Cell.dt d)
      :: metadata_cols.map (fun c => (c, Cell.str (metaVal r c)))
      ++ (numericCols0.filter (fun c => !(metadata_cols.contains c))).map
          (fun c => (c, Cell.num (numGet r c))), ?_, ?_, ?_, ?_⟩
  · rw [waq_pipeline_eq numericCols0 rows th tm hdate]
    refine List.mem_map.mpr ⟨d, hdk, ?_⟩
    rw [hg]
    simp [List.headI, meanOpt_single]
  · exact rowLookup_shape_date _ _ _ _
  · intro c hc
    exact rowLookup_shape_num _ _ _ _ c hc
      (fun h => hdate (h ▸ List.mem_of_mem_filter hc))
      (nc_filter_not_meta numericCols0 c hc)
  · intro c hc
    exact rowLookup_shape_meta _ _ _ _ c hc

/-- Witness for C8: the fixture day holds exactly the 16:03 reading, and
the output row reproduces its `ph` value and metadata. -/
theorem C8_single_reading_idempotence_witness :
    ("date" ∉ ["ph"])
    ∧ (waq_group witWaqRows 16 0 ⟨2023, 10, 5, 16, 0, 0⟩ = [witWaqRow])
    ∧ ∃ row ∈ waq_pipeline ["ph"] witWaqRows 16 0,
        rowLookup row "date" = some (Cell.dt ⟨2023, 10, 5, 16, 0, 0⟩)
        ∧ (∀ c ∈ ["ph"].filter (fun c => !(metadata_cols.contains c)),
            rowLookup row c = some (Cell.num (numGet witWaqRow c)))
        ∧ (∀ c ∈ metadata_cols, rowLookup row c = some (Cell.str (metaVal witWaqRow c))) :=
  ⟨by decide, by decide,
   C8_single_reading_idempotence ["ph"] witWaqRows 16 0 ⟨2023, 10, 5, 16, 0, 0⟩ witWaqRow
     (by decide) (by decide)⟩

/-- C4: the discharge pipeline keeps a row iff its hour and minute equal
the target exactly; the kept rows go, unchanged and in order, to
`{output_dir}{site_id}_daily_00130.csv`; 15:59 is excluded and 16:00
included for a 16:00 target. -/
theorem C4_discharge_exact_filter (th tm : Int) (rows : List CsdRow) :
    (∀ r : CsdRow, r ∈ csd_filtered rows th tm
        ↔ r ∈ rows ∧ (r.endDateTime.hour : Int) = th ∧ (r.endDateTime.minute : Int) = tm)
    ∧ List.Sublist (csd_filtered rows th tm) rows
    ∧ (∀ (o : Oracle) (savepath siteid : String) (b : Bundle),
        o.load "DP4.00130.001" = Except.ok (PyVal.dict b) →
        getCsdT b = Except.ok rows →
        Eff.fileWrite (savepath ++ siteid ++ "_daily_00130.csv")
            (FileContent.csdCsv (csd_filtered rows th tm))
          ∈ (csd_try_block o savepath siteid th tm).1)
    ∧ (csd_keep 16 0 ⟨⟨2024, 5, 1, 15, 59, 0⟩, []⟩ = false)
    ∧ (csd_keep 16 0 ⟨⟨2024, 5, 1, 16, 0, 0⟩, []⟩ = true) := by
  refine ⟨?_, List.filter_sublist rows, ?_, by decide, by decide⟩
  · intro r
    rw [csd_filtered, List.mem_filter, csd_keep]
    simp [Bool.and_eq_true]
  · intro o savepath siteid b hload hget
    unfold csd_try_block
    rw [hload]
    simp [hget]

/-- Witness for C4: a concrete discharge bundle; the 16:00 row's CSV write
appears in the trace. -/
theorem C4_discharge_exact_filter_witness :
    (witOracleCsd.load "DP4.00130.001" = Except.ok (PyVal.dict witCsdBundle))
    ∧ (getCsdT witCsdBundle = Except.ok witCsdRows)
    ∧ Eff.fileWrite ("out/" ++ "LEWI" ++ "_daily_00130.csv")
        (FileContent.csdCsv (csd_filtered witCsdRows 16 0))
      ∈ (csd_try_block witOracleCsd "out/" "LEWI" 16 0).1 :=
  ⟨rfl, rfl,
   (C4_discharge_exact_filter 16 0 witCsdRows).2.2.1 witOracleCsd "out/" "LEWI" witCsdBundle
     rfl rfl⟩

/-- C7: `write_citation` selects exactly the bundle entries whose key
contains `citation_` + product code (the key is lowercased, and the
pattern is its own lowercase form whenever the product code has no upper
case letters, so the match is case-insensitive), writes their values in
order to `{output_dir}{site_id}_citation_{product_id}.txt` overwriting any
previous content, and writes the empty sequence — without error — when
nothing matches. -/
theorem C7_write_citation {α : Type} (dpnum siteid savepath : String)
    (data : List (String × α)) :
    ((write_citation dpnum siteid data savepath).1
        = savepath ++ siteid ++ "_citation_" ++ dpnum ++ ".txt")
    ∧ ((write_citation dpnum siteid data savepath).2
        = (data.filter (fun kv => strContains (pyLower kv.1) ("citation_" ++ dpnum))).map
            (fun kv => kv.2))
    ∧ (∀ v : α, v ∈ (write_citation dpnum siteid data savepath).2
        ↔ ∃ k, (k, v) ∈ data ∧ strContains (pyLower k) ("citation_" ++ dpnum) = true)
    ∧ ((∀ kv ∈ data, strContains (pyLower kv.1) ("citation_" ++ dpnum) = false) →
        (write_citation dpnum siteid data savepath).2 = [])
    ∧ (∀ fs : List (String × List α),
        fsRead (fsWrite fs (write_citation dpnum siteid data savepath).1
            (write_citation dpnum siteid data savepath).2)
          (write_citation dpnum siteid data savepath).1
          = some (write_citation dpnum siteid data savepath).2)
    ∧ (pyLower ("citation_" ++ dpnum) = "citation_" ++ dpnum →
        ∀ k : String, strContains (pyLower k) ("citation_" ++ dpnum)
          = strContainsCI k ("citation_" ++ dpnum)) := by
  refine ⟨rfl, rfl, ?_, ?_, ?_, ?_⟩
  · intro v
    constructor
    · intro hv
      obtain ⟨⟨k, w⟩, hkv, rfl⟩ := List.mem_map.mp hv
      refine ⟨k, List.mem_of_mem_filter hkv, ?_⟩
      simpa using List.of_mem_filter hkv
    · rintro ⟨k, hk, hp⟩
      exact List.mem_map.mpr ⟨(k, v), List.mem_filter.mpr ⟨hk, hp⟩, rfl⟩
  · intro h
    unfold write_citation
    rw [List.filter_eq_nil_iff.mpr (fun kv hkv => by simp [h kv hkv])]
    rfl
  · intro fs
    simp [fsRead, fsWrite]
  · intro h k
    unfold strContainsCI
    rw [h]
    rfl

/-- Witness for C7: no key of a table-only bundle matches, so the empty
sequence is written; and the lowercase-stability hypothesis holds for the
concrete product code `20288`. -/
theorem C7_write_citation_witness :
    (∀ kv ∈ ([("waq_instantaneous", "tbl")] : List (String × String)),
        strContains (pyLower kv.1) ("citation_" ++ "20288") = false)
    ∧ ((write_citation "20288" "LEWI"
          ([("waq_instantaneous", "tbl")] : List (String × String)) "out/").2 = [])
    ∧ (pyLower ("citation_" ++ "20288") = "citation_" ++ "20288")
    ∧ (strContains (pyLower "NEON CITATION_20288 text") ("citation_" ++ "20288")
        = strContainsCI "NEON CITATION_20288 text" ("citation_" ++ "20288")) :=
  ⟨by decide,
   (C7_write_citation "20288" "LEWI" "out/" [("waq_instantaneous", "tbl")]).2.2.2.1 (by decide),
   by decide,
   (C7_write_citation "20288" "LEWI" "out/" ([] : List (String × String))).2.2.2.2.2 (by decide)
     "NEON CITATION_20288 text"⟩

theorem waq_try_block_effects (o : Oracle) (sp sid : String) (th tm : Int) :
    ∀ eff ∈ (waq_try_block o sp sid th tm).1, isWaqEffect eff := by
  intro eff h
  unfold waq_try_block at h
  cases hl : o.load "DP1.20288.001" with
  | error e =>
    rw [hl] at h
    simp only [List.mem_singleton] at h
    exact Or.inl h
  | ok v =>
    cases v with
    | nonDict =>
      rw [hl] at h
      simp only [List.mem_singleton] at h
      exact Or.inl h
    | dict b =>
      rw [hl] at h
      cases hw : getWaqT b with
      | error e =>
        simp only [hw] at h
        simp only [List.mem_cons, List.not_mem_nil, or_false] at h
        rcases h with h | h
        · exact Or.inl h
        · exact Or.inr (Or.inl ⟨_, _, h⟩)
      | ok t =>
        simp only [hw] at h
        split at h
        · simp only [List.mem_cons, List.not_mem_nil, or_false] at h
          rcases h with h | h
          · exact Or.inl h
          · exact Or.inr (Or.inl ⟨_, _, h⟩)
        · simp only [List.mem_append, List.mem_cons, List.not_mem_nil, or_false,
            List.mem_singleton] at h
          rcases h with (h | h) | h
          · exact Or.inl h
          · exact Or.inr (Or.inl ⟨_, _, h⟩)
          · exact Or.inr (Or.inr ⟨_, _, h⟩)

theorem csd_try_block_effects (o : Oracle) (sp sid : String) (th tm : Int) :
    ∀ eff ∈ (csd_try_block o sp sid th tm).1, isCsdEffect eff := by
  intro eff h
  unfold csd_try_block at h
  cases hl : o.load "DP4.00130.001" with
  | error e =>
    rw [hl] at h
    simp only [List.mem_singleton] at h
    exact Or.inl h
  | ok v =>
    cases v with
    | nonDict =>
      rw [hl] at h
      simp only [List.mem_singleton] at h
      exact Or.inl h
    | dict b =>
      rw [hl] at h
      cases hw : getCsdT b with
      | error e =>
        simp only [hw] at h
        simp only [List.mem_cons, List.not_mem_nil, or_false] at h
        rcases h with h | h
        · exact Or.inl h
        · exact Or.inr (Or.inl ⟨_, _, h⟩)
      | ok rows =>
        simp only [hw] at h
        simp only [List.mem_append, List.mem_cons, List.not_mem_nil, or_false,
          List.mem_singleton] at h
        rcases h with (h | h) | h
        · exact Or.inl h
        · exact Or.inr (Or.inl ⟨_, _, h⟩)
        · exact Or.inr (Or.inr ⟨_, _, h⟩)

theorem csd_try_block_download (o : Oracle) (sp sid : String) (th tm : Int) :
    Eff.download "DP4.00130.001" ∈ (csd_try_block o sp sid th tm).1 := by
  unfold csd_try_block
  cases hl : o.load "DP4.00130.001" with
  | error e => simp
  | ok v =>
    cases v with
    | nonDict => simp
    | dict b =>
      cases hw : getCsdT b with
      | error e => simp [hw]
      | ok rows => simp [hw]

/-- C5: an exception inside the water-quality `try` block is caught, a
message carrying the exception text is printed, the function returns
early, and the discharge pipeline never runs: no 00130 download and no
00130 citation or CSV write appear in the trace. -/
theorem C5_waq_failure_skips_discharge (o : Oracle)
    (savepath siteid startmonth endmonth timeutc : String) (th tm : Int) (e : String)
    (hp : parseTimeutc timeutc = Except.ok (th, tm))
    (hA : (waq_try_block o savepath siteid th tm).2 = Except.error e) :
    (neon_dwnld_sum_daily o savepath siteid startmonth endmonth timeutc
      = ((waq_try_block o savepath siteid th tm).1
          ++ [Eff.print ("Error downloading data: " ++ e)], Outcome.earlyReturn))
    ∧ Eff.download "DP4.00130.001"
        ∉ (neon_dwnld_sum_daily o savepath siteid startmonth endmonth timeutc).1
    ∧ (∀ p v, Eff.fileWrite p (FileContent.citation "00130" v)
        ∉ (neon_dwnld_sum_daily o savepath siteid startmonth endmonth timeutc).1)
    ∧ (∀ p rs, Eff.fileWrite p (FileContent.csdCsv rs)
        ∉ (neon_dwnld_sum_daily o savepath siteid startmonth endmonth timeutc).1) := by
  have key : neon_dwnld_sum_daily o savepath siteid startmonth endmonth timeutc
      = ((waq_try_block o savepath siteid th tm).1
          ++ [Eff.print ("Error downloading data: " ++ e)], Outcome.earlyReturn) := by
    unfold neon_dwnld_sum_daily
    simp only [hp]
    rcases hx : waq_try_block o savepath siteid th tm with ⟨trA, resA⟩
    rw [hx] at hA
    simp only at hA
    cases resA with
    | error e2 =>
      have he : e2 = e := by simpa using hA
      subst he
      rfl
    | ok u => exact absurd hA (by simp)
  refine ⟨key, ?_, ?_, ?_⟩
  · rw [key]
    intro hmem
    simp only [List.mem_append, List.mem_singleton] at hmem
    rcases hmem with hmem | hmem
    · rcases waq_try_block_effects o savepath siteid th tm _ hmem with h | ⟨p, v, h⟩ | ⟨p, rs, h⟩
      · exact absurd h (by decide)
      · simp at h
      · simp at h
    · simp at hmem
  · intro p v
    rw [key]
    intro hmem
    simp only [List.mem_append, List.mem_singleton] at hmem
    rcases hmem with hmem | hmem
    · rcases waq_try_block_effects o savepath siteid th tm _ hmem with h | ⟨q, w, h⟩ | ⟨q, rs, h⟩
      · simp at h
      · simp at h
      · simp at h
    · simp at hmem
  · intro p rs
    rw [key]
    intro hmem
    simp only [List.mem_append, List.mem_singleton] at hmem
    rcases hmem with hmem | hmem
    · rcases waq_try_block_effects o savepath siteid th tm _ hmem with h | ⟨q, w, h⟩ | ⟨q, rs2, h⟩
      · simp at h
      · simp at h
      · simp at h
    · simp at hmem

/-- Witness for C5 at an oracle whose water-quality download raises. -/
theorem C5_waq_failure_skips_discharge_witness :
    (parseTimeutc "16:00" = Except.ok (16, 0))
    ∧ ((waq_try_block witOracleFail "out/" "LEWI" 16 0).2 = Except.error "boom")
    ∧ Eff.download "DP4.00130.001"
        ∉ (neon_dwnld_sum_daily witOracleFail "out/" "LEWI" "2023-10" "2024-09" "16:00").1 :=
  ⟨rfl, rfl,
   (C5_waq_failure_skips_discharge witOracleFail "out/" "LEWI" "2023-10" "2024-09" "16:00"
     16 0 "boom" rfl rfl).2.1⟩

/-- C9: a non-mapping download result (no exception) makes the
water-quality branch a silent no-op — no 20288 citation or CSV write, no
log line, no early return — and the function still downloads and
processes the discharge product. -/
theorem C9_nondict_continues (o : Oracle)
    (savepath siteid startmonth endmonth timeutc : String) (th tm : Int)
    (hp : parseTimeutc timeutc = Except.ok (th, tm))
    (hA : o.load "DP1.20288.001" = Except.ok PyVal.nonDict) :
    (waq_try_block o savepath siteid th tm = ([Eff.download "DP1.20288.001"], Except.ok ()))
    ∧ (neon_dwnld_sum_daily o savepath siteid startmonth endmonth timeutc
        = (match csd_try_block o savepath siteid th tm with
          | (trB, Except.error e2) =>
            ([Eff.download "DP1.20288.001"]
              ++ (trB ++ [Eff.print ("Error downloading data: " ++ e2)]), Outcome.earlyReturn)
          | (trB, Except.ok _) =>
            ([Eff.download "DP1.20288.001"]
              ++ (trB ++ [Eff.print success_message]), Outcome.normalReturn)))
    ∧ Eff.download "DP4.00130.001"
        ∈ (neon_dwnld_sum_daily o savepath siteid startmonth endmonth timeutc).1
    ∧ (∀ p v, Eff.fileWrite p (FileContent.citation "20288" v)
        ∉ (neon_dwnld_sum_daily o savepath siteid startmonth endmonth timeutc).1)
    ∧ (∀ p rs, Eff.fileWrite p (FileContent.waqCsv rs)
        ∉ (neon_dwnld_sum_daily o savepath siteid startmonth endmonth timeutc).1) := by
  have hblockA : waq_try_block o savepath siteid th tm
      = ([Eff.download "DP1.20288.001"], Except.ok ()) := by
    unfold waq_try_block
    rw [hA]
  have key : neon_dwnld_sum_daily o savepath siteid startmonth endmonth timeutc
      = (match csd_try_block o savepath siteid th tm with
        | (trB, Except.error e2) =>
          ([Eff.download "DP1.20288.001"]
            ++ (trB ++ [Eff.print ("Error downloading data: " ++ e2)]), Outcome.earlyReturn)
        | (trB, Except.ok _) =>
          ([Eff.download "DP1.20288.001"]
            ++ (trB ++ [Eff.print success_message]), Outcome.normalReturn)) := by
    unfold neon_dwnld_sum_daily
    simp only [hp, hblockA]
  refine ⟨hblockA, key, ?_, ?_, ?_⟩
  · rw [key]
    rcases hB : csd_try_block o savepath siteid th tm with ⟨trB, resB⟩
    have hdl : Eff.download "DP4.00130.001" ∈ trB := by
      have := csd_try_block_download o savepath siteid th tm
      rw [hB] at this
      exact this
    cases resB with
    | error e2 => simp [List.mem_append, hdl]
    | ok u => simp [List.mem_append, hdl]
  · intro p v
    rw [key]
    rcases hB : csd_try_block o savepath siteid th tm with ⟨trB, resB⟩
    have heffs : ∀ eff ∈ trB, isCsdEffect eff := by
      have := csd_try_block_effects o savepath siteid th tm
      rw [hB] at this
      exact this
    have hnotB : Eff.fileWrite p (FileContent.citation "20288" v) ∉ trB := by
      intro hmem
      rcases heffs _ hmem with h | ⟨q, w, h⟩ | ⟨q, rs2, h⟩
      · simp at h
      · simp at h
      · simp at h
    cases resB with
    | error e2 =>
      intro hmem
      simp only [List.mem_append, List.mem_cons, List.mem_singleton, List.not_mem_nil,
        or_false] at hmem
      rcases hmem with h | h | h
      · simp at h
      · exact hnotB (by simpa using h)
      · simp at h
    | ok u =>
      intro hmem
      simp only [List.mem_append, List.mem_cons, List.mem_singleton, List.not_mem_nil,
        or_false] at hmem
      rcases hmem with h | h | h
      · simp at h
      · exact hnotB (by simpa using h)
      · simp at h
  · intro p rs
    rw [key]
    rcases hB : csd_try_block o savepath siteid th tm with ⟨trB, resB⟩
    have heffs : ∀ eff ∈ trB, isCsdEffect eff := by
      have := csd_try_block_effects o savepath siteid th tm
      rw [hB] at this
      exact this
    have hnotB : Eff.fileWrite p (FileContent.waqCsv rs) ∉ trB := by
      intro hmem
      rcases heffs _ hmem with h | ⟨q, w, h⟩ | ⟨q, rs2, h⟩
      · simp at h
      · simp at h
      · simp at h
    cases resB with
    | error e2 =>
      intro hmem
      simp only [List.mem_append, List.mem_cons, List.mem_singleton, List.not_mem_nil,
        or_false] at hmem
      rcases hmem with h | h | h
      · simp at h
      · exact hnotB (by simpa using h)
      · simp at h
    | ok u =>
      intro hmem
      simp only [List.mem_append, List.mem_cons, List.mem_singleton, List.not_mem_nil,
        or_false] at hmem
      rcases hmem with h | h | h
      · simp at h
      · exact hnotB (by simpa using h)
      · simp at h

/-- Witness for C9 at an oracle returning a non-mapping value. -/
theorem C9_nondict_continues_witness :
    (parseTimeutc "16:00" = Except.ok (16, 0))
    ∧ (witOracleNonDict.load "DP1.20288.001" = Except.ok PyVal.nonDict)
    ∧ Eff.download "DP4.00130.001"
        ∈ (neon_dwnld_sum_daily witOracleNonDict "out/" "LEWI" "2023-10" "2024-09" "16:00").1 :=
  ⟨rfl, rfl,
   (C9_nondict_continues witOracleNonDict "out/" "LEWI" "2023-10" "2024-09" "16:00" 16 0
     rfl rfl).2.2.1⟩

/-- C10: a `timeutc` that does not parse as two colon-separated integers
raises before either `try` block: nothing is downloaded, written, or
logged by the summarizer (in particular no "Error downloading data" line),
and the driver's per-site handler is what catches and logs it. -/
theorem C10_parse_failure_raises (w : World) (siteid : String) (p : SiteParams) (e : String)
    (hp : parseTimeutc p.timeutc = Except.error e) :
    (neon_dwnld_sum_daily (w siteid) data_dir siteid p.startmonth p.endmonth p.timeutc
      = ([], Outcome.raised e))
    ∧ driverStep w siteid p
      = [Eff.print (processingMsg siteid p),
         Eff.print ("Error processing site " ++ siteid ++ ": " ++ e)] := by
  have key : neon_dwnld_sum_daily (w siteid) data_dir siteid p.startmonth p.endmonth p.timeutc
      = ([], Outcome.raised e) := by
    unfold neon_dwnld_sum_daily
    simp only [hp]
  refine ⟨key, ?_⟩
  unfold driverStep
  rw [key]
  rfl

/-- Witness for C10: the time string `"noon"` raises, and the driver logs
it. -/
theorem C10_parse_failure_raises_witness :
    (parseTimeutc witBadParams.timeutc
      = Except.error "ValueError: invalid literal for int() with base 10")
    ∧ driverStep witWorldFail "LEWI" witBadParams
      = [Eff.print (processingMsg "LEWI" witBadParams),
         Eff.print ("Error processing site " ++ "LEWI" ++ ": "
           ++ "ValueError: invalid literal for int() with base 10")] :=
  ⟨rfl,
   (C10_parse_failure_raises witWorldFail "LEWI" witBadParams
     "ValueError: invalid literal for int() with base 10" rfl).2⟩

theorem driverStep_head (w : World) (siteid : String) (p : SiteParams) :
    ∃ rest : Trace, driverStep w siteid p = Eff.print (processingMsg siteid p) :: rest := by
  unfold driverStep
  rcases hx : neon_dwnld_sum_daily (w siteid) data_dir siteid p.startmonth p.endmonth p.timeutc
    with ⟨tr, out⟩
  cases out with
  | earlyReturn => exact ⟨tr, rfl⟩
  | normalReturn => exact ⟨tr, rfl⟩
  | raised e => exact ⟨tr ++ [Eff.print ("Error processing site " ++ siteid ++ ": " ++ e)], rfl⟩

/-- C6: the driver walks the fixed site table in order; each site's trace
appears contiguously in the overall trace, every site is attempted (its
processing log line appears) no matter what the others did, an exception
from one site's summarizer is caught and logged without propagating, and
the completion message is always the last effect. -/
theorem C6_driver_isolates_failures (w : World) :
    (script_main w = (site_inputs.map (fun sp => driverStep w sp.1 sp.2)).flatten
        ++ [Eff.print "All sites processed successfully"])
    ∧ (∀ sp ∈ site_inputs, ∃ pre post : Trace,
        script_main w = pre ++ (driverStep w sp.1 sp.2 ++ post))
    ∧ (∀ sp ∈ site_inputs, Eff.print (processingMsg sp.1 sp.2) ∈ script_main w)
    ∧ ((script_main w).getLast? = some (Eff.print "All sites processed successfully"))
    ∧ (∀ (siteid : String) (p : SiteParams) (tr : Trace) (e : String),
        neon_dwnld_sum_daily (w siteid) data_dir siteid p.startmonth p.endmonth p.timeutc
          = (tr, Outcome.raised e) →
        driverStep w siteid p
          = Eff.print (processingMsg siteid p)
            :: (tr ++ [Eff.print ("Error processing site " ++ siteid ++ ": " ++ e)])) := by
  have hdecompose : ∀ sp ∈ site_inputs, ∃ pre post : Trace,
      script_main w = pre ++ (driverStep w sp.1 sp.2 ++ post) := by
    intro sp hsp
    obtain ⟨l1, l2, hsit⟩ := List.append_of_mem hsp
    refine ⟨(l1.map (fun sp => driverStep w sp.1 sp.2)).flatten,
      (l2.map (fun sp => driverStep w sp.1 sp.2)).flatten
        ++ [Eff.print "All sites processed successfully"], ?_⟩
    unfold script_main
    rw [hsit]
    simp [List.map_append, List.flatten_append, List.append_assoc]
  refine ⟨rfl, hdecompose, ?_, ?_, ?_⟩
  · intro sp hsp
    obtain ⟨pre, post, heq⟩ := hdecompose sp hsp
    obtain ⟨rest, hh⟩ := driverStep_head w sp.1 sp.2
    rw [heq, hh]
    simp [List.mem_append]
  · exact List.getLast?_concat _
  · intro siteid p tr e h
    unfold driverStep
    rw [h]

/-- Witness for C6: with every download failing, the LEWI site is in the
table, its processing line is in the batch trace, and a raising site is
caught and logged by the driver. -/
theorem C6_driver_isolates_failures_witness :
    (("LEWI", witSiteParams) ∈ site_inputs)
    ∧ Eff.print (processingMsg "LEWI" witSiteParams) ∈ script_main witWorldFail
    ∧ ((script_main witWorldFail).getLast?
        = some (Eff.print "All sites processed successfully")) :=
  ⟨by decide,
   (C6_driver_isolates_failures witWorldFail).2.2.1 ("LEWI", witSiteParams) (by decide),
   (C6_driver_isolates_failures witWorldFail).2.2.2.1⟩
